import Mathlib

/-!
Verification of the Attention-Zoomer duration dial and formatters.

The definitions below are a shallow embedding of the TypeScript source:
  * `fractionToSeconds`, `secondsToFraction`, `handleInteraction` and the
    surrounding drag state machine come from `src/components/TimeSelector.tsx`;
  * `getTimeContext` comes from `src/constants.ts`;
  * `formatTime` comes from the shared types module.
JavaScript numbers are modelled as real numbers, `Math.round` as Mathlib's
`round` (both round half toward positive infinity), `Math.floor` as `Int.floor`,
`Math.atan2 dy dx` as `Complex.arg ⟨dx, dy⟩` (both have range (-π, π] on
non-zero vectors and return 0 at the origin), and the JS remainder operator
as truncated-division remainder.
-/

namespace AttentionZoomer

/-- Constant `MIN_ANGLE = -135` from TimeSelector.tsx. -/
noncomputable def MIN_ANGLE : ℝ := -135

/-- Constant `MAX_ANGLE = 135` from TimeSelector.tsx. -/
noncomputable def MAX_ANGLE : ℝ := 135

/-- Constant `ANGLE_RANGE = MAX_ANGLE - MIN_ANGLE` from TimeSelector.tsx. -/
noncomputable def ANGLE_RANGE : ℝ := MAX_ANGLE - MIN_ANGLE

/-- Constant `MIN_SECONDS = 15` from TimeSelector.tsx. -/
noncomputable def MIN_SECONDS : ℝ := 15

/-- Constant `MAX_SECONDS = 900` from TimeSelector.tsx. -/
noncomputable def MAX_SECONDS : ℝ := 900

/-- Function `fractionToSeconds` from TimeSelector.tsx:
`Math.round((MIN_SECONDS + (MAX_SECONDS - MIN_SECONDS) * Math.pow(f, 1.2)) / 5) * 5`. -/
noncomputable def fractionToSeconds (f : ℝ) : ℤ :=
  let power : ℝ := 1.2
  let raw : ℝ := MIN_SECONDS + (MAX_SECONDS - MIN_SECONDS) * f ^ power
  round (raw / 5) * 5

/-- Function `secondsToFraction` from TimeSelector.tsx: clamp `s` into
`[MIN_SECONDS, MAX_SECONDS]`, then `Math.pow((clamped - MIN) / (MAX - MIN), 1 / 1.2)`. -/
noncomputable def secondsToFraction (s : ℝ) : ℝ :=
  let power : ℝ := 1.2
  let clamped : ℝ := max MIN_SECONDS (min MAX_SECONDS s)
  ((clamped - MIN_SECONDS) / (MAX_SECONDS - MIN_SECONDS)) ^ (1 / power)

/-- Model of `Math.atan2 y x`: the argument of the complex number `x + y·i`. -/
noncomputable def atan2 (y x : ℝ) : ℝ := Complex.arg ⟨x, y⟩

/-- The angle computation inside `handleInteraction`:
`atan2(dy, dx) * 180 / π`, shifted by `+90`, normalized into `(-180, 180]`. -/
noncomputable def angleDeg (dx dy : ℝ) : ℝ :=
  let a : ℝ := atan2 dy dx * (180 / Real.pi) + 90
  if a > 180 then a - 360 else a

/-- Value `clampedAngle` inside `handleInteraction`:
`Math.max(MIN_ANGLE, Math.min(MAX_ANGLE, angleDeg))`. -/
noncomputable def clampedAngle (dx dy : ℝ) : ℝ :=
  max MIN_ANGLE (min MAX_ANGLE (angleDeg dx dy))

/-- The value pipeline of `handleInteraction`: from the dial center
`(centerX, centerY)` and the pointer `(clientX, clientY)` to the snapped
seconds value handed to `onChange`. -/
noncomputable def computeSeconds (centerX centerY clientX clientY : ℝ) : ℤ :=
  let dx : ℝ := clientX - centerX
  let dy : ℝ := clientY - centerY
  let newFraction : ℝ := (clampedAngle dx dy - MIN_ANGLE) / ANGLE_RANGE
  fractionToSeconds newFraction

/-- The mutable state the dial keeps across events: the `isDragging` React
state and the `lastValueRef` ref. -/
structure DialState where
  isDragging : Bool
  lastValue : ℤ
deriving DecidableEq

/-- Pointer/touch events delivered to the dial handlers. -/
inductive DialEvent where
  | down (clientX clientY : ℝ)
  | move (clientX clientY : ℝ)
  | up

/-- Outcome of one event: the new state, the values passed to `onChange`
(in order), and whether `playClickSound` fired. -/
structure StepResult where
  state : DialState
  emitted : List ℤ
  clicked : Bool
deriving DecidableEq

/-- Function `handleInteraction` from TimeSelector.tsx. `geom` is `none` when
`knobRef.current` is null (geometry unavailable). When active it computes
`newSeconds`, plays the click and updates `lastValueRef` only when the value
changed, and always calls `onChange(newSeconds)`. -/
noncomputable def handleInteraction (disabled : Bool) (geom : Option (ℝ × ℝ))
    (st : DialState) (clientX clientY : ℝ) : StepResult :=
  if disabled then ⟨st, [], false⟩
  else
    match geom with
    | none => ⟨st, [], false⟩
    | some (cx, cy) =>
      let newSeconds : ℤ := computeSeconds cx cy clientX clientY
      let st' : DialState :=
        if newSeconds ≠ st.lastValue then { st with lastValue := newSeconds } else st
      ⟨st', [newSeconds], decide (newSeconds ≠ st.lastValue)⟩

/-- One event of the dial gesture machine:
`handleMouseDown`/`handleTouchStart` (guard on `disabled`, set `isDragging`,
then `handleInteraction`), the global `handleMove`/`handleTouchMove`
(guard on `isDragging`, then `handleInteraction`), and `handleUp`
(clear `isDragging`, no emission). -/
noncomputable def dialStep (disabled : Bool) (geom : Option (ℝ × ℝ))
    (st : DialState) (e : DialEvent) : StepResult :=
  match e with
  | DialEvent.down x y =>
      if disabled then ⟨st, [], false⟩
      else handleInteraction disabled geom { st with isDragging := true } x y
  | DialEvent.move x y =>
      if st.isDragging then handleInteraction disabled geom st x y
      else ⟨st, [], false⟩
  | DialEvent.up => ⟨{ st with isDragging := false }, [], false⟩

/-- Run a sequence of events; returns the final state, all `onChange`
values in order, and the number of clicks played. -/
noncomputable def dialRun (disabled : Bool) (geom : Option (ℝ × ℝ))
    (st : DialState) : List DialEvent → DialState × List ℤ × ℕ
  | [] => (st, [], 0)
  | e :: es =>
      let r := dialStep disabled geom st e
      let rest := dialRun disabled geom r.state es
      (rest.1, r.emitted ++ rest.2.1, (if r.clicked then 1 else 0) + rest.2.2)

/-- Function `getTimeContext` from src/constants.ts: the if-else chain of
threshold comparisons. -/
def getTimeContext (seconds : ℤ) : String :=
  if seconds ≤ 15 then "Usain Bolt runs almost 200 meters."
  else if seconds ≤ 30 then "About the length of a cheeky TikTok."
  else if seconds ≤ 45 then "Quicker than a typical elevator pitch."
  else if seconds ≤ 60 then "One \x27microwave minute\x27 (feels longer)."
  else if seconds ≤ 90 then "Time to tie your shoelaces, double knot."
  else if seconds ≤ 120 then "Dentist-approved brushing time."
  else if seconds ≤ 180 then "Roughly the length of a pop song."
  else if seconds ≤ 240 then "Steeping a bag of Earl Grey."
  else if seconds ≤ 300 then "A perfect soft-boiled egg."
  else if seconds ≤ 420 then "Reading the Terms & Conditions (just kidding)."
  else if seconds ≤ 500 then "Walking about a quarter mile."
  else if seconds ≤ 600 then "A quick coffee break."
  else if seconds ≤ 750 then "Ordering dinner for a group of four."
  else if seconds ≤ 900 then "A solid power nap."
  else "A sitcom episode (without ads)."

/-- The threshold/description table of `getTimeContext`, in source order. -/
def contextTable : List (ℤ × String) :=
  [(15, "Usain Bolt runs almost 200 meters."),
   (30, "About the length of a cheeky TikTok."),
   (45, "Quicker than a typical elevator pitch."),
   (60, "One \x27microwave minute\x27 (feels longer)."),
   (90, "Time to tie your shoelaces, double knot."),
   (120, "Dentist-approved brushing time."),
   (180, "Roughly the length of a pop song."),
   (240, "Steeping a bag of Earl Grey."),
   (300, "A perfect soft-boiled egg."),
   (420, "Reading the Terms & Conditions (just kidding)."),
   (500, "Walking about a quarter mile."),
   (600, "A quick coffee break."),
   (750, "Ordering dinner for a group of four."),
   (900, "A solid power nap.")]

/-- The fallback description of `getTimeContext`, returned past the largest
threshold. -/
def fallbackContext : String := "A sitcom episode (without ads)."

/-- First-match scan of an ordered threshold table, as the spec describes
`describe`: return the description of the first threshold the value does not
exceed, else the fallback. -/
def firstMatch : List (ℤ × String) → String → ℤ → String
  | [], fb, _ => fb
  | (t, d) :: rest, fb, s => if s ≤ t then d else firstMatch rest fb s

/-- Truncation toward zero, the rounding JS uses for its `%` operator. -/
noncomputable def jsTrunc (x : ℝ) : ℤ := if 0 ≤ x then ⌊x⌋ else ⌈x⌉

/-- The JS remainder operator `x % y`: `x - y * trunc(x / y)`. -/
noncomputable def jsMod (x y : ℝ) : ℝ := x - y * (jsTrunc (x / y) : ℝ)

/-- Function `formatTime` from the shared types module:
seconds below 60 render as `"<round(s)>s"`; otherwise minutes are
`Math.floor(seconds / 60)` and seconds `Math.round(seconds % 60)`, rendered
as `"<m>m <s>s"` when the remainder is positive and `"<m>m"` otherwise. -/
noncomputable def formatTime (seconds : ℝ) : String :=
  if seconds < 60 then toString (round seconds) ++ "s"
  else
    let m : ℤ := ⌊seconds / 60⌋
    let s : ℤ := round (jsMod seconds 60)
    if s > 0 then toString m ++ "m " ++ toString s ++ "s" else toString m ++ "m"


/-! ### Helper lemmas -/

/-- Monotonicity of `round` on the reals. -/
theorem round_mono {a b : ℝ} (h : a ≤ b) : round a ≤ round b := by
  rw [round_eq, round_eq]
  exact Int.floor_le_floor (by linarith)

/-! ### C3 and C8: the description table -/

/-- C3 counterexample: the claimed value at 900 is wrong on the code: the
chain hits `seconds <= 900` and returns the power-nap line, not the sitcom
fallback the claim asserts. -/
theorem getTimeContext_at_900_not_sitcom :
    getTimeContext 900 ≠ "A sitcom episode (without ads)." ∧
    getTimeContext 900 = "A solid power nap." :=
  ⟨by decide, rfl⟩

/-- C3 (amended): boundary and fallback values of the description table:
`getTimeContext 15` is the Usain Bolt line, `getTimeContext 900` is the
power-nap line (the last table entry, not the fallback), and
`getTimeContext 1000` returns the same fallback string as
`getTimeContext 901`. -/
theorem getTimeContext_boundaries :
    getTimeContext 15 = "Usain Bolt runs almost 200 meters." ∧
    getTimeContext 900 = "A solid power nap." ∧
    getTimeContext 1000 = getTimeContext 901 ∧
    getTimeContext 1000 = fallbackContext := by
  refine ⟨rfl, rfl, rfl, rfl⟩

/-- C8: `getTimeContext` is a total first-match lookup over the ordered
ascending threshold table, with the sitcom line as fallback past the largest
threshold (900). -/
theorem getTimeContext_firstMatch (s : ℤ) (_hs : 0 ≤ s) :
    getTimeContext s = firstMatch contextTable fallbackContext s ∧
    (900 < s → getTimeContext s = fallbackContext) ∧
    List.Chain' (fun a b => a.1 < b.1) contextTable := by
  refine ⟨?_, ?_, ?_⟩
  · simp only [getTimeContext, contextTable, fallbackContext, firstMatch]
  · intro h900
    simp only [getTimeContext]
    repeat rw [if_neg (show _ by omega)]
    rfl
  · simp only [contextTable, List.chain'_cons, List.chain'_singleton]
    norm_num

/-- C8 witness: the lookup theorem applied at the concrete input 42. -/
theorem getTimeContext_firstMatch_witness :
    (0 : ℤ) ≤ 42 ∧
    (getTimeContext 42 = firstMatch contextTable fallbackContext 42 ∧
      (900 < (42 : ℤ) → getTimeContext 42 = fallbackContext) ∧
      List.Chain' (fun a b => a.1 < b.1) contextTable) :=
  ⟨by decide, getTimeContext_firstMatch 42 (by decide)⟩

/-! ### The forward mapping `fractionToSeconds` -/

/-- Unfolded form of `fractionToSeconds` with the numeric constants
substituted. -/
theorem fractionToSeconds_def (f : ℝ) :
    fractionToSeconds f = round ((15 + 885 * f ^ (1.2 : ℝ)) / 5) * 5 := by
  simp only [fractionToSeconds, MIN_SECONDS, MAX_SECONDS]
  norm_num

/-- C5: the forward mapping computes `15 + (900 - 15) * f ^ 1.2` rounded to
the nearest multiple of 5 (a multiple of 5 within 5/2 of the raw value), and
takes the boundary values `fractionToSeconds 0 = 15` and
`fractionToSeconds 1 = 900`. -/
theorem fractionToSeconds_formula :
    (∀ f : ℝ, fractionToSeconds f =
        round ((15 + (900 - 15) * f ^ (1.2 : ℝ)) / 5) * 5) ∧
    (∀ f : ℝ, (5 : ℤ) ∣ fractionToSeconds f ∧
        |(fractionToSeconds f : ℝ) - (15 + (900 - 15) * f ^ (1.2 : ℝ))| ≤ 5 / 2) ∧
    fractionToSeconds 0 = 15 ∧ fractionToSeconds 1 = 900 := by
  refine ⟨?_, ?_, ?_, ?_⟩
  · intro f
    rw [fractionToSeconds_def]
    norm_num
  · intro f
    rw [fractionToSeconds_def]
    refine ⟨dvd_mul_left 5 _, ?_⟩
    have h := abs_sub_round ((15 + 885 * f ^ (1.2 : ℝ)) / 5)
    rw [abs_le] at h ⊢
    push_cast
    constructor <;> [linarith [h.1, h.2]; linarith [h.1, h.2]]
  · rw [fractionToSeconds_def, Real.zero_rpow (by norm_num : (1.2 : ℝ) ≠ 0)]
    norm_num [round_eq]
  · rw [fractionToSeconds_def, Real.one_rpow]
    norm_num [round_eq]

/-- C6: the forward mapping is non-decreasing on `[0, 1]` despite the
rounding to multiples of 5. -/
theorem fractionToSeconds_mono (f1 f2 : ℝ) (h0 : 0 ≤ f1) (h12 : f1 < f2)
    (_h1 : f2 ≤ 1) :
    fractionToSeconds f1 ≤ fractionToSeconds f2 := by
  rw [fractionToSeconds_def, fractionToSeconds_def]
  have hp : f1 ^ (1.2 : ℝ) ≤ f2 ^ (1.2 : ℝ) :=
    Real.rpow_le_rpow h0 h12.le (by norm_num)
  have hr : round ((15 + 885 * f1 ^ (1.2 : ℝ)) / 5) ≤
      round ((15 + 885 * f2 ^ (1.2 : ℝ)) / 5) := round_mono (by linarith)
  exact mul_le_mul_of_nonneg_right hr (by norm_num)

/-- C6 witness: monotonicity applied at the concrete pair `0 < 1`. -/
theorem fractionToSeconds_mono_witness :
    (0 : ℝ) ≤ 0 ∧ (0 : ℝ) < 1 ∧ (1 : ℝ) ≤ 1 ∧
    fractionToSeconds 0 ≤ fractionToSeconds 1 :=
  ⟨le_refl 0, by norm_num, le_refl 1,
    fractionToSeconds_mono 0 1 (le_refl 0) (by norm_num) (le_refl 1)⟩

/-! ### C1: round-trip of the angle/value mapping -/

/-- C1: for every integer `s` in `[15, 900]` that is a multiple of 5,
`fractionToSeconds (secondsToFraction s) = s`. -/
theorem roundtrip (s : ℤ) (h15 : 15 ≤ s) (h900 : s ≤ 900) (h5 : s % 5 = 0) :
    fractionToSeconds (secondsToFraction (s : ℝ)) = s := by
  have hs15 : (15 : ℝ) ≤ (s : ℝ) := by exact_mod_cast h15
  have hsf : secondsToFraction (s : ℝ) =
      (((s : ℝ) - 15) / 885) ^ ((1 : ℝ) / 1.2) := by
    simp only [secondsToFraction, MIN_SECONDS, MAX_SECONDS]
    rw [min_eq_right (by exact_mod_cast h900 : (s : ℝ) ≤ 900),
      max_eq_right hs15]
    norm_num
  have hx0 : (0 : ℝ) ≤ ((s : ℝ) - 15) / 885 :=
    div_nonneg (by linarith) (by norm_num)
  have hpow : ((((s : ℝ) - 15) / 885) ^ ((1 : ℝ) / 1.2)) ^ (1.2 : ℝ) =
      ((s : ℝ) - 15) / 885 := by
    rw [← Real.rpow_mul hx0]
    norm_num
  rw [hsf, fractionToSeconds_def, hpow]
  have hraw : 15 + 885 * (((s : ℝ) - 15) / 885) = (s : ℝ) := by
    field_simp
  rw [hraw]
  obtain ⟨k, rfl⟩ : (5 : ℤ) ∣ s := Int.dvd_of_emod_eq_zero h5
  push_cast
  rw [show (5 : ℝ) * (k : ℝ) / 5 = (k : ℝ) by ring, round_intCast]
  ring

/-- C1 witness: the round-trip theorem applied at the concrete value 20. -/
theorem roundtrip_witness :
    (15 : ℤ) ≤ 20 ∧ (20 : ℤ) ≤ 900 ∧ (20 : ℤ) % 5 = 0 ∧
    fractionToSeconds (secondsToFraction ((20 : ℤ) : ℝ)) = 20 :=
  ⟨by decide, by decide, by decide,
    roundtrip 20 (by decide) (by decide) (by decide)⟩

/-! ### C2: the emitted-value invariant of `handleInteraction` -/

/-- The forward mapping sends any pre-clamped fraction in `[0, 1]` to an
integer in `[15, 900]` that is a multiple of 5. -/
theorem fractionToSeconds_bounds (f : ℝ) (h0 : 0 ≤ f) (h1 : f ≤ 1) :
    15 ≤ fractionToSeconds f ∧ fractionToSeconds f ≤ 900 ∧
    (5 : ℤ) ∣ fractionToSeconds f := by
  rw [fractionToSeconds_def]
  have ht0 : 0 ≤ f ^ (1.2 : ℝ) := Real.rpow_nonneg h0 _
  have ht1 : f ^ (1.2 : ℝ) ≤ 1 := Real.rpow_le_one h0 h1 (by norm_num)
  have hlo : round (((3 : ℤ) : ℝ)) ≤ round ((15 + 885 * f ^ (1.2 : ℝ)) / 5) :=
    round_mono (by push_cast; linarith)
  have hhi : round ((15 + 885 * f ^ (1.2 : ℝ)) / 5) ≤ round (((180 : ℤ) : ℝ)) :=
    round_mono (by push_cast; linarith)
  rw [round_intCast] at hlo hhi
  exact ⟨by omega, by omega, dvd_mul_left 5 _⟩

/-- The clamp inside `handleInteraction` lands in `[-135, 135]` whatever the
raw angle was. -/
theorem clampedAngle_bounds (dx dy : ℝ) :
    -135 ≤ clampedAngle dx dy ∧ clampedAngle dx dy ≤ 135 := by
  unfold clampedAngle MIN_ANGLE MAX_ANGLE
  exact ⟨le_max_left _ _, max_le (by norm_num) (min_le_left _ _)⟩

/-- C2: for every pointer position, arbitrarily far outside the widget,
`handleInteraction` (not disabled, geometry available) clamps the angle into
`[-135, 135]` and passes to `onChange` exactly one value, an integer in
`[15, 900]` that is a multiple of 5. -/
theorem handleInteraction_emits_valid (cx cy x y : ℝ) (st : DialState) :
    (-135 ≤ clampedAngle (x - cx) (y - cy) ∧ clampedAngle (x - cx) (y - cy) ≤ 135) ∧
    (handleInteraction false (some (cx, cy)) st x y).emitted =
      [computeSeconds cx cy x y] ∧
    15 ≤ computeSeconds cx cy x y ∧ computeSeconds cx cy x y ≤ 900 ∧
    (5 : ℤ) ∣ computeSeconds cx cy x y := by
  obtain ⟨hl, hr⟩ := clampedAngle_bounds (x - cx) (y - cy)
  refine ⟨⟨hl, hr⟩, rfl, ?_⟩
  have hb := fractionToSeconds_bounds
    ((clampedAngle (x - cx) (y - cy) - MIN_ANGLE) / ANGLE_RANGE) ?_ ?_
  · simpa only [computeSeconds] using hb
  · rw [MIN_ANGLE, ANGLE_RANGE, MAX_ANGLE, MIN_ANGLE]
    apply div_nonneg (by linarith) (by norm_num)
  · rw [MIN_ANGLE, ANGLE_RANGE, MAX_ANGLE, MIN_ANGLE]
    rw [div_le_one (by norm_num)]
    linarith

/-! ### Evaluating the pipeline at a concrete pointer position -/

/-- With the dial centered at the origin and the pointer straight below the
center, the pipeline produces the maximal value 900. -/
theorem computeSeconds_eval : computeSeconds 0 0 0 1 = 900 := by
  have harg : atan2 1 0 = Real.pi / 2 := by
    unfold atan2
    have hI : (⟨0, 1⟩ : ℂ) = Complex.I := by
      apply Complex.ext <;> simp
    rw [hI, Complex.arg_I]
  have h90 : Real.pi / 2 * (180 / Real.pi) = 90 := by
    field_simp
    ring
  have hangle : angleDeg 0 1 = 180 := by
    simp only [angleDeg, harg, h90]
    norm_num
  have hclamp : clampedAngle 0 1 = 135 := by
    simp only [clampedAngle, hangle, MIN_ANGLE, MAX_ANGLE]
    norm_num
  simp only [computeSeconds, sub_zero, hclamp, MIN_ANGLE, ANGLE_RANGE, MAX_ANGLE]
  norm_num
  rw [fractionToSeconds_def, Real.one_rpow]
  norm_num [round_eq]

/-! ### C4: emission behaviour during a drag -/

/-- C4 counterexample: with the dial dragging, last emitted value 900, and
the pointer at a position that recomputes to 900 again, the move still calls
`onChange` — the source calls `onChange(newSeconds)` unconditionally, outside
the value-changed check. -/
theorem move_unchanged_still_emits :
    computeSeconds 0 0 0 1 = (DialState.mk true 900).lastValue ∧
    (dialStep false (some (0, 0)) (DialState.mk true 900)
        (DialEvent.move 0 1)).emitted = [900] ∧
    (dialStep false (some (0, 0)) (DialState.mk true 900)
        (DialEvent.move 0 1)).emitted ≠ [] := by
  have h2 : (dialStep false (some (0, 0)) (DialState.mk true 900)
      (DialEvent.move 0 1)).emitted = [computeSeconds 0 0 0 1] := rfl
  refine ⟨computeSeconds_eval, ?_, ?_⟩
  · rw [h2, computeSeconds_eval]
  · rw [h2, computeSeconds_eval]
    simp

/-- C4 amended: while dragging, every accepted move invokes `onChange` with
the recomputed value, whether or not it changed; the value-changed check
gates only the click feedback (and the stored last value). -/
theorem dragging_move_always_emits (st : DialState) (cx cy x y : ℝ)
    (h : st.isDragging = true) :
    (dialStep false (some (cx, cy)) st (DialEvent.move x y)).emitted =
      [computeSeconds cx cy x y] ∧
    ((dialStep false (some (cx, cy)) st (DialEvent.move x y)).clicked = true ↔
      computeSeconds cx cy x y ≠ st.lastValue) := by
  simp only [dialStep, h, if_true, handleInteraction]
  refine ⟨rfl, ?_⟩
  simp [decide_eq_true_iff]

/-- C4 amended witness: the emission equation applied at a concrete dragging
state and pointer position. -/
theorem dragging_move_always_emits_witness :
    (DialState.mk true 0).isDragging = true ∧
    ((dialStep false (some (0, 0)) (DialState.mk true 0)
        (DialEvent.move 0 1)).emitted = [computeSeconds 0 0 0 1] ∧
      ((dialStep false (some (0, 0)) (DialState.mk true 0)
          (DialEvent.move 0 1)).clicked = true ↔
        computeSeconds 0 0 0 1 ≠ (DialState.mk true 0).lastValue)) :=
  ⟨rfl, dragging_move_always_emits (DialState.mk true 0) 0 0 0 1 rfl⟩

/-! ### C9: a disabled dial is inert -/

/-- C9: with `disabled = true`, any sequence of events starting from an idle
state leaves the state unchanged (the dial never enters Dragging), calls
`onChange` zero times, and plays no click. -/
theorem disabled_inert (geom : Option (ℝ × ℝ)) (v : ℤ) (es : List DialEvent) :
    dialRun true geom (DialState.mk false v) es = (DialState.mk false v, [], 0) := by
  induction es with
  | nil => rfl
  | cons e es ih =>
      have hstep : dialStep true geom (DialState.mk false v) e =
          ⟨DialState.mk false v, [], false⟩ := by
        cases e with
        | down x y => rfl
        | move x y => rfl
        | up => rfl
      simp [dialRun, hstep, ih]

/-! ### C7 and C10: the short formatter -/

/-- Rendering an integer cast from `ℕ` to `ℤ` gives the same decimal string. -/
theorem toString_intCast (n : ℕ) : toString ((n : ℤ)) = toString n := rfl

/-- The floor of `n / 60` over the reals is natural-number division. -/
theorem floor_natCast_div_sixty (n : ℕ) :
    ⌊(n : ℝ) / 60⌋ = ((n / 60 : ℕ) : ℤ) := by
  rw [Int.floor_eq_iff]
  constructor
  · rw [Int.cast_natCast, le_div_iff₀ (by norm_num)]
    exact_mod_cast Nat.div_mul_le_self n 60
  · rw [Int.cast_natCast, div_lt_iff₀ (by norm_num)]
    exact_mod_cast (Nat.div_lt_iff_lt_mul (by norm_num)).mp (Nat.lt_succ_self _)

/-- The JS remainder of a natural number by 60 is the natural remainder. -/
theorem jsMod_natCast_sixty (n : ℕ) :
    jsMod (n : ℝ) 60 = ((n % 60 : ℕ) : ℝ) := by
  unfold jsMod jsTrunc
  rw [if_pos (by positivity), floor_natCast_div_sixty, Int.cast_natCast]
  have hr : (60 : ℝ) * ((n / 60 : ℕ) : ℝ) + ((n % 60 : ℕ) : ℝ) = (n : ℝ) := by
    exact_mod_cast Nat.div_add_mod n 60
  linarith

/-- Closed form of `formatTime` on a natural number of seconds. -/
theorem formatTime_natCast (n : ℕ) :
    formatTime (n : ℝ) =
      if n < 60 then toString n ++ "s"
      else if n % 60 = 0 then toString (n / 60) ++ "m"
      else toString (n / 60) ++ "m " ++ toString (n % 60) ++ "s" := by
  by_cases h : n < 60
  · rw [if_pos h]
    simp only [formatTime]
    rw [if_pos (by exact_mod_cast h), round_natCast, toString_intCast]
  · rw [if_neg h]
    simp only [formatTime]
    rw [if_neg (by exact_mod_cast h), floor_natCast_div_sixty,
      jsMod_natCast_sixty, round_natCast]
    by_cases hz : n % 60 = 0
    · rw [if_pos hz, if_neg (by simp [hz]), toString_intCast]
    · rw [if_neg hz,
        if_pos (by exact_mod_cast Nat.pos_of_ne_zero hz),
        toString_intCast, toString_intCast]

/-- C7: `formatTime` on non-negative integers renders seconds below 60 as
`"<s>s"`, and otherwise minutes with the nonzero remainder as
`"<M>m <S>s"` or just `"<M>m"`; in particular it sends 45 to `"45s"`,
180 to `"3m"`, and 90 to `"1m 30s"`. -/
theorem formatTime_spec (n : ℕ) :
    formatTime (n : ℝ) =
      (if n < 60 then toString n ++ "s"
       else if n % 60 = 0 then toString (n / 60) ++ "m"
       else toString (n / 60) ++ "m " ++ toString (n % 60) ++ "s") ∧
    formatTime 45 = "45s" ∧ formatTime 180 = "3m" ∧ formatTime 90 = "1m 30s" := by
  refine ⟨formatTime_natCast n, ?_, ?_, ?_⟩
  · have h := formatTime_natCast 45
    norm_num at h
    rw [h]
    rfl
  · have h := formatTime_natCast 180
    norm_num at h
    rw [h]
    rfl
  · have h := formatTime_natCast 90
    norm_num at h
    rw [h]
    rfl

/-- C10: for the fractional input 119.5, minutes are floored and the
remainder rounded independently, so the seconds field reaches 60:
`formatTime 119.5 = "1m 60s"`, not `"2m"`. -/
theorem formatTime_fractional :
    formatTime (119.5 : ℝ) = "1m 60s" ∧ formatTime (119.5 : ℝ) ≠ "2m" := by
  have hfloor : ⌊(119.5 : ℝ) / 60⌋ = 1 := by
    rw [Int.floor_eq_iff]
    norm_num
  have hmod : jsMod (119.5 : ℝ) 60 = 59.5 := by
    unfold jsMod jsTrunc
    rw [if_pos (by norm_num), hfloor]
    norm_num
  have hround : round (59.5 : ℝ) = 60 := by
    rw [round_eq]
    norm_num
  have h1 : formatTime (119.5 : ℝ) = "1m 60s" := by
    simp only [formatTime]
    rw [if_neg (by norm_num), hfloor, hmod, hround, if_pos (by norm_num)]
    rfl
  exact ⟨h1, by rw [h1]; decide⟩
end AttentionZoomer
